import Mathlib

/-!
Verification development for the CodeSolver Pro unified build script
(`build.js`).  The script is a multi-target release pipeline: for each
browser platform it cleans an output directory, copies a manifest,
minifies and obfuscates every configured JavaScript module (with a
platform-specific API-namespace transform applied first), copies optional
style/markup/asset files, and generates a release README.

The embedding models filesystem paths as lists of components
(`path.join` becomes list append) and the filesystem itself as an
association list from path to file content.  The two external code
protection passes (terser and javascript-obfuscator) are not part of this
repository; per the collaborator contract they are deterministic
text-in/text-out functions and are modeled as an opaque `Toolchain`.
-/

namespace CodeSolverPro

set_option maxRecDepth 100000

/-- A filesystem path, as the list of its components.  `path.join` in
`build.js` is modeled as list append. -/
abbrev Path := List String

/-! ### The JavaScript global string replacement

`code.replace(/chrome\./g, 'browser.')` in `build.js` replaces every
(leftmost, non-overlapping) occurrence of the literal pattern and keeps
scanning after each replacement.  `replaceAux` is fuel-indexed so that it
is structurally recursive; the fuel is the length of the string, which is
enough because every step consumes at least one character. -/

def replaceAux (pat rep : List Char) : Nat → List Char → List Char
  | _, [] => []
  | 0, s => s
  | Nat.succ n, c :: rest =>
    if pat.isPrefixOf (c :: rest) then
      rep ++ replaceAux pat rep n ((c :: rest).drop pat.length)
    else
      c :: replaceAux pat rep n rest

/-- JavaScript `s.replace(/pat/g, rep)` for a nonempty literal pattern:
literal, purely textual, global substitution. -/
def jsReplace (s pat rep : String) : String :=
  ⟨replaceAux pat.data rep.data s.data.length s.data⟩

/-- JavaScript `s.toLowerCase()` (ASCII arguments only in `build.js`). -/
def jsToLower (s : String) : String :=
  ⟨s.data.map Char.toLower⟩

/-! ### Configuration (`CONFIG` in `build.js`)

The terser and obfuscator option records of `CONFIG` are opaque inputs of
the two external protection passes; they are folded into the `Toolchain`
functions below (fixed options, fixed functions). -/

structure Config where
  sourceDir : Path
  chromeReleaseDir : Path
  firefoxReleaseDir : Path
  jsFiles : List String
  cssFiles : List String
  htmlFiles : List String
  copyDirs : List String

def CONFIG : Config :=
  { sourceDir := ["src"]
    chromeReleaseDir := ["chrome_release"]
    firefoxReleaseDir := ["firefox_release"]
    jsFiles := ["background.js", "content.js", "injected.js", "sidepanel.js"]
    cssFiles := ["sidepanel.css"]
    htmlFiles := ["sidepanel.html"]
    copyDirs := ["icons"] }

/-! ### Platform registry (`PLATFORMS` in `build.js`) -/

structure Platform where
  name : String
  releaseDir : Path
  manifestFile : String
  /-- the `namespace` field of `build.js` (renamed: keyword). -/
  apiNamespace : String
  apiTransform : String → String
  readmeTemplate : String

/-- The Firefox compatibility shim prepended by
`PLATFORMS.firefox.apiTransform` (the `polyfill` template literal). -/
def firefoxPolyfill : String :=
  "\n// Firefox compatibility\nif (typeof browser === \x27undefined\x27) \x7b\n  var browser = chrome;\n\x7d\n"

/-- `PLATFORMS.firefox.apiTransform`: rewrite every occurrence of
`chrome.` to `browser.`, then prepend the compatibility shim. -/
def firefoxApiTransform (code : String) : String :=
  let transformed := jsReplace code "chrome." "browser."
  firefoxPolyfill ++ transformed

def chromePlatform : Platform :=
  { name := "Chrome"
    releaseDir := CONFIG.chromeReleaseDir
    manifestFile := "chrome.json"
    apiNamespace := "chrome"
    apiTransform := fun code => code
    readmeTemplate := "chrome" }

def firefoxPlatform : Platform :=
  { name := "Firefox"
    releaseDir := CONFIG.firefoxReleaseDir
    manifestFile := "firefox.json"
    apiNamespace := "browser"
    apiTransform := firefoxApiTransform
    readmeTemplate := "firefox" }

def PLATFORMS : List (String × Platform) :=
  [("chrome", chromePlatform), ("firefox", firefoxPlatform)]

/-- `PLATFORMS[platformKey]` of `build.js`. -/
def lookupPlatform (key : String) : Option Platform :=
  (PLATFORMS.find? (fun e => e.1 == key)).map (·.2)

/-! ### The filesystem model

`World.files` is an association list from path to content; a read takes
the most recent (first) entry.  `World.bad` is the set of paths at which
the underlying filesystem reports an unexpected I/O fault (permission
denied, disk error); it is empty in a healthy environment. -/

structure World where
  files : List (Path × String)
  bad : List Path
deriving DecidableEq

def World.read (w : World) (p : Path) : Option String :=
  (w.files.find? (fun e => e.1 == p)).map (·.2)

def World.isBad (w : World) (p : Path) : Bool :=
  w.bad.contains p

inductive FsError
  | notFound
  | ioError
deriving DecidableEq

/-- `fs.readFile`: ENOENT when the path is absent; an unexpected fault at
a bad path. -/
def fsReadFile (w : World) (p : Path) : Except FsError String :=
  if w.isBad p then .error .ioError
  else
    match w.read p with
    | some c => .ok c
    | none => .error .notFound

/-- `fs.writeFile`: creates or overwrites; an unexpected fault at a bad
path. -/
def fsWriteFile (w : World) (p : Path) (c : String) : Except FsError World :=
  if w.isBad p then .error .ioError
  else .ok { w with files := (p, c) :: w.files }

/-- The entries lying outside a directory (the ones `fs.rm` keeps). -/
def keepOutside (dir : Path) : Path × String → Bool :=
  fun e => !(dir.isPrefixOf e.1)

/-- `fs.rm(path, recursive+force)`: removes the path and everything below
it; with `force: true` a missing path is not an error, and an unexpected
fault at a bad path is. -/
def fsRm (w : World) (p : Path) : Except FsError World :=
  if w.isBad p then .error .ioError
  else .ok { w with files := w.files.filter (keepOutside p) }

/-- `ensureDir` of `build.js` (`fs.access` / `fs.mkdir recursive`):
directories are implicit in the path-keyed store, so this is the
identity on the store. -/
def ensureDir (w : World) (_dirPath : Path) : World := w

/-- `removeDir` of `build.js`: `fs.rm(dirPath, recursive+force)` inside a
try/catch whose catch clause ignores the error (the comment in the source
says the intent is to ignore a missing directory). -/
def removeDir (w : World) (dirPath : Path) : World :=
  match fsRm w dirPath with
  | .ok w' => w'
  | .error _ => w

/-- `copyFile` of `build.js` (`fs.copyFile`). -/
def copyFile (w : World) (src dest : Path) : Except FsError World :=
  match fsReadFile w src with
  | .error e => .error e
  | .ok c => fsWriteFile w dest c

/-- The files lying strictly below a directory. -/
def entriesUnder (w : World) (dir : Path) : List (Path × String) :=
  w.files.filter (fun e => dir.isPrefixOf e.1 && decide (e.1 ≠ dir))

/-- `copyDir` of `build.js`: recursively mirrors a directory.  In the
flat path-keyed store the recursion collapses to copying every file whose
path extends `src` to the corresponding path under `dest`; `fs.readdir`
on a missing source directory throws ENOENT, modeled as the no-entries
case.  The inner per-file writes are modeled as plain store updates. -/
def copyDir (w : World) (src dest : Path) : Except FsError World :=
  let entries := entriesUnder w src
  if entries.isEmpty then .error .notFound
  else
    .ok { w with files :=
      entries.map (fun e => (dest ++ e.1.drop src.length, e.2)) ++ w.files }

/-! ### The protection pipeline collaborators

Terser (`minify`) and javascript-obfuscator (`obfuscate`) are external
packages, consumed as black boxes with fixed options: deterministic
text-in/text-out, minification with a declared failure path
(`minified.error`), obfuscation with none. -/

structure Toolchain where
  minify : String → Except String String
  obfuscate : String → String

/-- A degenerate toolchain (both passes the identity), used to evaluate
the model on concrete inputs. -/
def idToolchain : Toolchain :=
  { minify := fun s => .ok s, obfuscate := fun s => s }

inductive BuildError
  | fsFail (e : FsError)
  | minifyFail (msg : String)
  | unknownPlatform (key : String)
deriving DecidableEq

/-! ### `processJsFile` -/

/-- `processJsFile(filename, platform)`: read the module source, apply
the platform API transform, minify (its declared error aborts), obfuscate,
write the result to the platform release directory under the original
filename.  The world is returned even on failure, since the failure
leaves previous writes in place. -/
def processJsFile (tc : Toolchain) (w : World) (filename : String)
    (platform : Platform) : World × Option BuildError :=
  let sourcePath := CONFIG.sourceDir ++ ["js", filename]
  let destPath := platform.releaseDir ++ [filename]
  match fsReadFile w sourcePath with
  | .error e => (w, some (.fsFail e))
  | .ok sourceCode =>
    let sourceCode := platform.apiTransform sourceCode
    match tc.minify sourceCode with
    | .error msg => (w, some (.minifyFail msg))
    | .ok minified =>
      let obfuscated := tc.obfuscate minified
      match fsWriteFile w destPath obfuscated with
      | .error e => (w, some (.fsFail e))
      | .ok w' => (w', none)

/-- Step 3 of `buildPlatform`: the sequential `for` loop over
`CONFIG.jsFiles`; the first failure aborts the remaining modules. -/
def processJsFiles (tc : Toolchain) (platform : Platform) :
    List String → World → World × Option BuildError
  | [], w => (w, none)
  | f :: rest, w =>
    match processJsFile tc w f platform with
    | (w', none) => processJsFiles tc platform rest w'
    | (w', some e) => (w', some e)

/-! ### `generateReleaseReadme` -/

/-- Version resolution in `generateReleaseReadme`: read `package.json`
and extract its `version` field, defaulting to `1.0.0` when the file is
absent or unreadable (never fatal).  JSON field extraction is abstracted:
the model stores the version value as the file content. -/
def readVersion (w : World) : String :=
  match fsReadFile w ["package.json"] with
  | .ok c => c
  | .error _ => "1.0.0"

/-- The rendered `README.md` for a platform.  The literal prose of the
template is abbreviated to its substitution points: platform display
name, manifest-version label, API label, panel label, resolved version,
and the build date (`new Date().toISOString().split(\x27T\x27)[0]` in
`build.js` -- the only nondeterministic input of the template). -/
def readmeContent (platform : Platform) (version date : String) : String :=
  let isChrome := platform.name == "Chrome"
  let browserName := if isChrome then "Chrome" else "Firefox"
  let manifestVersion := if isChrome then "V3" else "V2"
  let apiName := if isChrome then "chrome.*" else "browser.*"
  let panelType := if isChrome then "Side Panel" else "Sidebar"
  "# CodeSolver Pro - " ++ browserName ++ " -- Manifest " ++ manifestVersion ++
    " -- API " ++ apiName ++ " -- Panel " ++ panelType ++
    " -- Version " ++ version ++ " -- Built on " ++ date

/-- `generateReleaseReadme(platform)`: resolve the version (non-fatal),
render the document, write it to `<releaseDir>/README.md`.  The write has
no surrounding catch in `build.js`, so its failure propagates. -/
def generateReleaseReadme (w : World) (platform : Platform)
    (date : String) : Except FsError World :=
  let version := readVersion w
  fsWriteFile w (platform.releaseDir ++ ["README.md"])
    (readmeContent platform version date)

/-! ### `buildPlatform` -/

/-- Step 4 of `buildPlatform`: copy one optional file; a failure is
caught, logged and skipped. -/
def copyOptionalFile (w : World) (src dest : Path) : World :=
  match copyFile w src dest with
  | .ok w' => w'
  | .error _ => w

/-- Step 6 of `buildPlatform`: copy one optional directory; a failure is
caught, logged and skipped. -/
def copyOptionalDir (w : World) (src dest : Path) : World :=
  match copyDir w src dest with
  | .ok w' => w'
  | .error _ => w

/-- Steps 2..7 of `buildPlatform` (everything after the clean of the
release directory). -/
def buildPlatformSteps (tc : Toolchain) (date : String)
    (platform : Platform) (w : World) : World × Option BuildError :=
  -- Step 2: copy and rename the platform manifest
  match copyFile w (CONFIG.sourceDir ++ ["manifests", platform.manifestFile])
      (platform.releaseDir ++ ["manifest.json"]) with
  | .error e => (w, some (.fsFail e))
  | .ok w =>
    -- Step 3: process JavaScript files (the only loop whose failure aborts)
    match processJsFiles tc platform CONFIG.jsFiles w with
    | (w', some e) => (w', some e)
    | (w', none) =>
      -- Step 4: copy CSS files (missing is skipped)
      let w' := CONFIG.cssFiles.foldl (fun w f =>
        copyOptionalFile w (CONFIG.sourceDir ++ ["css", f])
          (platform.releaseDir ++ [f])) w'
      -- Step 5: copy HTML files (missing is skipped)
      let w' := CONFIG.htmlFiles.foldl (fun w f =>
        copyOptionalFile w (CONFIG.sourceDir ++ ["html", f])
          (platform.releaseDir ++ [f])) w'
      -- Step 6: copy asset directories (missing is skipped)
      let w' := CONFIG.copyDirs.foldl (fun w d =>
        copyOptionalDir w (CONFIG.sourceDir ++ [d])
          (platform.releaseDir ++ [d])) w'
      -- Step 7: generate the release README
      match generateReleaseReadme w' platform date with
      | .error e => (w', some (.fsFail e))
      | .ok w'' => (w'', none)

/-- `buildPlatform(platformKey)`: resolve the platform spec (an unknown
key fails before any filesystem operation -- in `build.js` the access to
the undefined registry entry throws), clean the release directory, then
run steps 2..7. -/
def buildPlatform (tc : Toolchain) (date : String) (platformKey : String)
    (w : World) : World × Option BuildError :=
  match lookupPlatform platformKey with
  | none => (w, some (.unknownPlatform platformKey))
  | some platform =>
    -- Step 1: clean release directory
    let w := ensureDir (removeDir w platform.releaseDir) platform.releaseDir
    buildPlatformSteps tc date platform w

/-! ### The entry point `build()` -/

structure RunResult where
  world : World
  exitCode : Nat
  stdoutLines : List String
  stderrLines : List String
deriving DecidableEq

def errorMessage : BuildError → String
  | .fsFail .notFound => "ENOENT: no such file or directory"
  | .fsFail .ioError => "EACCES: permission denied"
  | .minifyFail msg => msg
  | .unknownPlatform _ => "Cannot read properties of undefined"

/-- The usage block printed (via `console.log`, hence standard output) by
the unknown-target branch of `build()`. -/
def usageLines : List String :=
  ["Usage: node build.js [chrome|firefox|all]",
   "  chrome, ch  - Build Chrome extension only",
   "  firefox, ff - Build Firefox extension only",
   "  all, both   - Build both extensions (default)"]

def successResult (w : World) : RunResult :=
  { world := w, exitCode := 0
    stdoutLines := ["All builds completed successfully!"]
    stderrLines := [] }

/-- The top-level catch of `build()`: report the message on standard
error and exit non-zero, without cleanup. -/
def failureResult (w : World) (e : BuildError) : RunResult :=
  { world := w, exitCode := 1
    stdoutLines := []
    stderrLines := ["Build failed: " ++ errorMessage e] }

def finishRun : World × Option BuildError → RunResult
  | (w, none) => successResult w
  | (w, some e) => failureResult w e

/-- `build()`: dispatch on the first positional argument (lowercased; a
missing or empty argument defaults to `all`).  The `all` branch builds
chrome then firefox sequentially; a chrome failure propagates to the
top-level catch, so firefox is not attempted.  The unknown-target branch
prints the diagnostic on standard error (`console.error`) and the usage
block on standard output (`console.log`), then exits non-zero. -/
def build (tc : Toolchain) (date : String) (argv : List String)
    (w : World) : RunResult :=
  let target := match argv.head? with
    | some a => if a.isEmpty then "all" else jsToLower a
    | none => "all"
  if target == "chrome" || target == "ch" then
    finishRun (buildPlatform tc date "chrome" w)
  else if target == "firefox" || target == "ff" then
    finishRun (buildPlatform tc date "firefox" w)
  else if target == "all" || target == "both" then
    match buildPlatform tc date "chrome" w with
    | (w', some e) => failureResult w' e
    | (w', none) => finishRun (buildPlatform tc date "firefox" w')
  else
    { world := w, exitCode := 1
      stdoutLines := usageLines
      stderrLines := ["Unknown target: " ++ target] }

/-! ### Derived notions used by the statements -/

/-- The paths a `buildPlatform` run can write for the current source
configuration: the renamed manifest, one protected module per configured
filename, the optional style/markup files, the mirrored asset-directory
files (read off the current source tree of `w`), and the generated
README. -/
def producedPaths (platform : Platform) (w : World) : List Path :=
  [platform.releaseDir ++ ["manifest.json"]]
    ++ CONFIG.jsFiles.map (fun f => platform.releaseDir ++ [f])
    ++ CONFIG.cssFiles.map (fun f => platform.releaseDir ++ [f])
    ++ CONFIG.htmlFiles.map (fun f => platform.releaseDir ++ [f])
    ++ (CONFIG.copyDirs.map (fun d =>
          (entriesUnder w (CONFIG.sourceDir ++ [d])).map
            (fun e => platform.releaseDir ++ [d]
              ++ e.1.drop (CONFIG.sourceDir ++ [d]).length))).flatten
    ++ [platform.releaseDir ++ ["README.md"]]

/-- One module can be processed for a platform: its source file is
present and the minification pass accepts the transformed text. -/
def moduleOk (tc : Toolchain) (platform : Platform) (w : World)
    (f : String) : Bool :=
  match w.read (CONFIG.sourceDir ++ ["js", f]) with
  | none => false
  | some s =>
    match tc.minify (platform.apiTransform s) with
    | .ok _ => true
    | .error _ => false

/-- Invariant of one build step `w ⇝ w'` of a platform build whose
release directory is `dir` and whose writes stay inside the path set `S`:
the fault set is untouched, the entry list outside `dir` is untouched,
and reads at paths outside `S` are unchanged. -/
structure StepInv (dir : Path) (S : List Path) (w w' : World) : Prop where
  bad_eq : w'.bad = w.bad
  keep_eq : w'.files.filter (keepOutside dir) = w.files.filter (keepOutside dir)
  read_off : ∀ p : Path, p ∉ S → w'.read p = w.read p

/-! ### Concrete worlds used as evaluation inputs -/

def emptyWorld : World := { files := [], bad := [] }

/-- A complete, healthy source tree. -/
def srcWorld : World :=
  { files := [(["src", "manifests", "chrome.json"], "mc"),
              (["src", "manifests", "firefox.json"], "mf"),
              (["src", "js", "background.js"], "a"),
              (["src", "js", "content.js"], "b"),
              (["src", "js", "injected.js"], "c"),
              (["src", "js", "sidepanel.js"], "d"),
              (["src", "css", "sidepanel.css"], "styles"),
              (["src", "html", "sidepanel.html"], "markup"),
              (["src", "icons", "icon16.png"], "i16"),
              (["package.json"], "1.2.3")]
    bad := [] }

/-- A source tree whose second configured module (`content.js`) is
absent, with a pre-existing file in the sibling platform's release
directory. -/
def c1World : World :=
  { files := [(["src", "manifests", "chrome.json"], "mc"),
              (["src", "manifests", "firefox.json"], "mf"),
              (["src", "js", "background.js"], "bg"),
              (["src", "js", "injected.js"], "inj"),
              (["src", "js", "sidepanel.js"], "sp"),
              (["firefox_release", "stale.txt"], "old")]
    bad := [] }

/-- The healthy source tree in an environment where writing the
generated README faults (e.g. permission denied at that path). -/
def c3World : World :=
  { srcWorld with bad := [["chrome_release", "README.md"]] }

/-- A directory `d` with contents, in an environment where the
recursive removal of `d` faults (e.g. permission denied). -/
def c4World : World :=
  { files := [(["d", "x"], "content")], bad := [["d"]] }

/-! ## Basic read lemmas -/

theorem read_cons_of_ne (l : List (Path × String)) (b : List Path) (q : Path)
    (c : String) (p : Path) (h : q ≠ p) :
    World.read ⟨(q, c) :: l, b⟩ p = World.read ⟨l, b⟩ p := by
  have hb : ¬ ((fun e : Path × String => e.1 == p) (q, c) = true) := by
    simp [h]
  show (List.find? (fun e => e.1 == p) ((q, c) :: l)).map (·.2)
      = (List.find? (fun e => e.1 == p) l).map (·.2)
  rw [@List.find?_cons_of_neg (Path × String) (fun e => e.1 == p) (q, c) l hb]

theorem read_cons_self (l : List (Path × String)) (b : List Path) (q : Path)
    (c : String) :
    World.read ⟨(q, c) :: l, b⟩ q = some c := by
  have hb : (fun e : Path × String => e.1 == q) (q, c) = true := by simp
  show (List.find? (fun e => e.1 == q) ((q, c) :: l)).map (·.2) = some c
  rw [@List.find?_cons_of_pos (Path × String) (fun e => e.1 == q) (q, c) l hb]
  rfl

/-! ## Path and filter lemmas -/

theorem prefix_bool_iff (l₁ l₂ : Path) : l₁.isPrefixOf l₂ = true ↔ l₁ <+: l₂ :=
  List.isPrefixOf_iff_prefix

theorem isPrefixOf_append (dir t : Path) : dir.isPrefixOf (dir ++ t) = true :=
  (prefix_bool_iff _ _).mpr (List.prefix_append _ _)

theorem prefix_head_ne (a b : String) (t₁ t₂ q : Path) (hab : a ≠ b)
    (h : (a :: t₁).isPrefixOf q = true) : (b :: t₂).isPrefixOf q = false := by
  cases hq : (b :: t₂).isPrefixOf q
  · rfl
  · exfalso
    rw [prefix_bool_iff] at h hq
    cases q with
    | nil => simp at h
    | cons x q' =>
      rw [List.cons_prefix_cons] at h hq
      exact hab (h.1.trans hq.1.symm)

theorem filter_of_filter_sub {α : Type} (pq pk : α → Bool) (l : List α)
    (h : ∀ e, pq e = true → pk e = true) :
    (l.filter pk).filter pq = l.filter pq := by
  induction l with
  | nil => rfl
  | cons e t ih =>
    by_cases he : pq e = true
    · have hk := h e he
      simp [List.filter_cons, he, hk, ih]
    · have he0 : pq e = false := by revert he; cases pq e <;> simp
      cases hpk : pk e <;> simp [List.filter_cons, hpk, he0, ih]

theorem read_filter_keep (l : List (Path × String)) (b b' : List Path)
    (dir p : Path) (h : dir.isPrefixOf p = false) :
    World.read ⟨l.filter (keepOutside dir), b⟩ p = World.read ⟨l, b'⟩ p := by
  induction l with
  | nil => rfl
  | cons e t ih =>
    rcases e with ⟨q, c⟩
    by_cases hq : q = p
    · subst hq
      have hkeep : keepOutside dir (q, c) = true := by
        simp [keepOutside, h]
      rw [List.filter_cons, if_pos hkeep, read_cons_self, read_cons_self]
    · rw [List.filter_cons]
      by_cases hkeep : keepOutside dir (q, c) = true
      · rw [if_pos hkeep, read_cons_of_ne _ _ _ _ _ hq,
          read_cons_of_ne _ _ _ _ _ hq]
        exact ih
      · rw [if_neg hkeep, read_cons_of_ne _ _ _ _ _ hq]
        exact ih

theorem read_filter_keep_under (l : List (Path × String)) (b : List Path)
    (dir p : Path) (h : dir.isPrefixOf p = true) :
    World.read ⟨l.filter (keepOutside dir), b⟩ p = none := by
  induction l with
  | nil => rfl
  | cons e t ih =>
    rcases e with ⟨q, c⟩
    rw [List.filter_cons]
    by_cases hkeep : keepOutside dir (q, c) = true
    · rw [if_pos hkeep]
      have hq : q ≠ p := by
        intro he; subst he
        simp [keepOutside, h] at hkeep
      rw [read_cons_of_ne _ _ _ _ _ hq]
      exact ih
    · rw [if_neg hkeep]; exact ih

/-! ## Step invariant lemmas -/

theorem StepInv.refl (dir : Path) (S : List Path) (w : World) :
    StepInv dir S w w := ⟨rfl, rfl, fun _ _ => rfl⟩

theorem StepInv.trans {dir : Path} {S₁ S₂ : List Path} {w w' w'' : World}
    (h₁ : StepInv dir S₁ w w') (h₂ : StepInv dir S₂ w' w'') :
    StepInv dir (S₁ ++ S₂) w w'' := by
  refine ⟨h₂.bad_eq.trans h₁.bad_eq, h₂.keep_eq.trans h₁.keep_eq, ?_⟩
  intro p hp
  rw [List.mem_append] at hp
  push_neg at hp
  exact (h₂.read_off p hp.2).trans (h₁.read_off p hp.1)

theorem StepInv.mono {dir : Path} {S T : List Path} {w w' : World}
    (h : StepInv dir S w w') (hs : ∀ p, p ∈ S → p ∈ T) :
    StepInv dir T w w' :=
  ⟨h.bad_eq, h.keep_eq, fun p hp => h.read_off p (fun hmem => hp (hs p hmem))⟩

theorem StepInv.read_outside {dir : Path} {S : List Path} {w w' : World}
    (h : StepInv dir S w w') (p : Path)
    (hp : dir.isPrefixOf p = false) : w'.read p = w.read p :=
  calc w'.read p
      = World.read ⟨w'.files.filter (keepOutside dir), w.bad⟩ p :=
        (read_filter_keep w'.files w.bad w'.bad dir p hp).symm
    _ = World.read ⟨w.files.filter (keepOutside dir), w.bad⟩ p := by
        rw [h.keep_eq]
    _ = w.read p := read_filter_keep w.files w.bad w.bad dir p hp

theorem write_inv (w : World) (q : Path) (c : String) (dir : Path)
    (h : dir.isPrefixOf q = true) :
    StepInv dir [q] w { w with files := (q, c) :: w.files } := by
  refine ⟨rfl, ?_, ?_⟩
  · show List.filter (keepOutside dir) ((q, c) :: w.files) = _
    rw [List.filter_cons, if_neg (by simp [keepOutside, h])]
  · intro p hp
    have hq : q ≠ p := fun he => hp (by simp [he])
    exact read_cons_of_ne w.files w.bad q c p hq

/-! ## Per-step lemmas for the platform build -/

theorem isPrefixOf_append_right (dir dest t : Path)
    (h : dir.isPrefixOf dest = true) : dir.isPrefixOf (dest ++ t) = true :=
  (prefix_bool_iff _ _).mpr
    (((prefix_bool_iff _ _).mp h).trans (List.prefix_append _ _))

theorem read_append_notin (L l : List (Path × String)) (b : List Path)
    (p : Path) (h : ∀ e ∈ L, e.1 ≠ p) :
    World.read ⟨L ++ l, b⟩ p = World.read ⟨l, b⟩ p := by
  induction L with
  | nil => rfl
  | cons e t ih =>
    rcases e with ⟨q, c⟩
    rw [List.cons_append,
      read_cons_of_ne _ _ _ _ _ (h (q, c) (List.mem_cons_self _ _))]
    exact ih (fun e' he' => h e' (List.mem_cons_of_mem _ he'))

theorem fsWriteFile_inv (w : World) (q : Path) (c : String) (dir : Path)
    (hq : dir.isPrefixOf q = true) :
    ∀ {w' : World}, fsWriteFile w q c = .ok w' → StepInv dir [q] w w' := by
  intro w' h
  unfold fsWriteFile at h
  split at h
  · exact Except.noConfusion h
  · injection h with h1
    subst h1
    exact write_inv w q c dir hq

theorem copyFile_inv (w : World) (src dest dir : Path)
    (hdest : dir.isPrefixOf dest = true) :
    ∀ {w' : World}, copyFile w src dest = .ok w' → StepInv dir [dest] w w' := by
  intro w' h
  unfold copyFile at h
  split at h
  · exact Except.noConfusion h
  · exact fsWriteFile_inv w dest _ dir hdest h

theorem copyOptionalFile_inv (w : World) (src dest dir : Path)
    (hdest : dir.isPrefixOf dest = true) :
    StepInv dir [dest] w (copyOptionalFile w src dest) := by
  unfold copyOptionalFile
  split
  · next w' hw' => exact copyFile_inv w src dest dir hdest hw'
  · exact StepInv.refl _ _ _

theorem processJsFile_inv (tc : Toolchain) (w : World) (f : String)
    (platform : Platform) :
    StepInv platform.releaseDir [platform.releaseDir ++ [f]] w
      (processJsFile tc w f platform).1 := by
  cases hr : fsReadFile w (CONFIG.sourceDir ++ ["js", f]) with
  | error e =>
    simp only [processJsFile, hr]
    exact StepInv.refl _ _ _
  | ok s =>
    cases hm : tc.minify (platform.apiTransform s) with
    | error msg =>
      simp only [processJsFile, hr, hm]
      exact StepInv.refl _ _ _
    | ok m =>
      cases hw : fsWriteFile w (platform.releaseDir ++ [f]) (tc.obfuscate m) with
      | error e =>
        simp only [processJsFile, hr, hm, hw]
        exact StepInv.refl _ _ _
      | ok w' =>
        simp only [processJsFile, hr, hm, hw]
        exact fsWriteFile_inv w _ _ _ (isPrefixOf_append _ _) hw

theorem processJsFiles_inv (tc : Toolchain) (platform : Platform) :
    ∀ (fs : List String) (w : World),
    StepInv platform.releaseDir
      (fs.map (fun f => platform.releaseDir ++ [f])) w
      (processJsFiles tc platform fs w).1 := by
  intro fs
  induction fs with
  | nil => intro w; exact StepInv.refl _ _ _
  | cons f rest ih =>
    intro w
    rcases hpf : processJsFile tc w f platform with ⟨w1, e1?⟩
    have i1 : StepInv platform.releaseDir
        [platform.releaseDir ++ [f]] w w1 := by
      have h0 := processJsFile_inv tc w f platform
      rwa [hpf] at h0
    cases e1? with
    | none =>
      have hstep : processJsFiles tc platform (f :: rest) w
          = processJsFiles tc platform rest w1 := by
        simp only [processJsFiles, hpf]
      rw [hstep]
      simpa only [List.map_cons, List.singleton_append]
        using i1.trans (ih w1)
    | some e =>
      have hstep : processJsFiles tc platform (f :: rest) w = (w1, some e) := by
        simp only [processJsFiles, hpf]
      rw [hstep]
      refine i1.mono ?_
      intro p hp
      rcases List.mem_singleton.mp hp with rfl
      simp only [List.map_cons]
      exact List.mem_cons_self _ _

theorem copyOptionalFiles_fold_inv (platform : Platform) (sub : String) :
    ∀ (fs : List String) (w : World),
    StepInv platform.releaseDir
      (fs.map (fun f => platform.releaseDir ++ [f])) w
      (fs.foldl (fun w f =>
        copyOptionalFile w (CONFIG.sourceDir ++ [sub, f])
          (platform.releaseDir ++ [f])) w) := by
  intro fs
  induction fs with
  | nil => intro w; exact StepInv.refl _ _ _
  | cons f rest ih =>
    intro w
    rw [List.foldl_cons]
    have i1 := copyOptionalFile_inv w (CONFIG.sourceDir ++ [sub, f])
      (platform.releaseDir ++ [f]) platform.releaseDir (isPrefixOf_append _ _)
    simpa only [List.map_cons, List.singleton_append]
      using i1.trans (ih (copyOptionalFile w (CONFIG.sourceDir ++ [sub, f])
        (platform.releaseDir ++ [f])))

theorem copyOptionalDir_inv (w : World) (src dest dir : Path)
    (hdest : dir.isPrefixOf dest = true) :
    StepInv dir
      ((entriesUnder w src).map (fun e => dest ++ e.1.drop src.length)) w
      (copyOptionalDir w src dest) := by
  unfold copyOptionalDir copyDir
  by_cases hemp : (entriesUnder w src).isEmpty = true
  · simp only [hemp, if_true]
    exact StepInv.refl _ _ _
  · simp only [hemp, if_false]
    refine ⟨rfl, ?_, ?_⟩
    · show List.filter (keepOutside dir)
          ((entriesUnder w src).map
            (fun e => (dest ++ e.1.drop src.length, e.2)) ++ w.files) = _
      rw [List.filter_append]
      have hnil : ((entriesUnder w src).map
          (fun e => (dest ++ e.1.drop src.length, e.2))).filter
            (keepOutside dir) = [] := by
        rw [List.filter_eq_nil_iff]
        intro e he
        rcases List.mem_map.mp he with ⟨e0, _, rfl⟩
        simp [keepOutside, isPrefixOf_append_right dir dest _ hdest]
      rw [hnil, List.nil_append]
    · intro p hp
      apply read_append_notin
      intro e he
      rcases List.mem_map.mp he with ⟨e0, he0, rfl⟩
      intro hep
      exact hp (List.mem_map.mpr ⟨e0, he0, hep⟩)

theorem generateReleaseReadme_inv (w : World) (platform : Platform)
    (date : String) :
    ∀ {w' : World}, generateReleaseReadme w platform date = .ok w' →
    StepInv platform.releaseDir
      [platform.releaseDir ++ ["README.md"]] w w' := by
  intro w' h
  unfold generateReleaseReadme at h
  exact fsWriteFile_inv w _ _ _ (isPrefixOf_append _ _) h

theorem entriesUnder_eq_of_keep (dir src : Path) (w w' : World)
    (hk : w'.files.filter (keepOutside dir) = w.files.filter (keepOutside dir))
    (hdisj : ∀ q : Path, src.isPrefixOf q = true →
      dir.isPrefixOf q = false) :
    entriesUnder w' src = entriesUnder w src := by
  have himp : ∀ e : Path × String,
      (src.isPrefixOf e.1 && decide (e.1 ≠ src)) = true →
      keepOutside dir e = true := by
    intro e he
    rw [Bool.and_eq_true] at he
    simp [keepOutside, hdisj e.1 he.1]
  unfold entriesUnder
  rw [← filter_of_filter_sub _ (keepOutside dir) w'.files himp, hk,
    filter_of_filter_sub _ (keepOutside dir) w.files himp]

theorem isPrefixOf_trans (a b c : Path) (h1 : a.isPrefixOf b = true)
    (h2 : b.isPrefixOf c = true) : a.isPrefixOf c = true :=
  (prefix_bool_iff _ _).mpr
    (((prefix_bool_iff _ _).mp h1).trans ((prefix_bool_iff _ _).mp h2))

theorem buildPlatformSteps_inv (tc : Toolchain) (date : String)
    (platform : Platform) (w : World)
    (hdisj : ∀ q : Path, CONFIG.sourceDir.isPrefixOf q = true →
      platform.releaseDir.isPrefixOf q = false) :
    StepInv platform.releaseDir (producedPaths platform w) w
      (buildPlatformSteps tc date platform w).1 := by
  have hdisjIcons : ∀ q : Path,
      (CONFIG.sourceDir ++ ["icons"]).isPrefixOf q = true →
      platform.releaseDir.isPrefixOf q = false :=
    fun q hq => hdisj q (isPrefixOf_trans _ _ _ (isPrefixOf_append _ _) hq)
  have hprod : producedPaths platform w
      = [platform.releaseDir ++ ["manifest.json"]]
        ++ CONFIG.jsFiles.map (fun f => platform.releaseDir ++ [f])
        ++ CONFIG.cssFiles.map (fun f => platform.releaseDir ++ [f])
        ++ CONFIG.htmlFiles.map (fun f => platform.releaseDir ++ [f])
        ++ ((entriesUnder w (CONFIG.sourceDir ++ ["icons"])).map
              (fun e => platform.releaseDir ++ ["icons"]
                ++ e.1.drop (CONFIG.sourceDir ++ ["icons"]).length) ++ [])
        ++ [platform.releaseDir ++ ["README.md"]] := rfl
  cases hm : copyFile w
      (CONFIG.sourceDir ++ ["manifests", platform.manifestFile])
      (platform.releaseDir ++ ["manifest.json"]) with
  | error e =>
    simp only [buildPlatformSteps, hm]
    exact StepInv.refl _ _ _
  | ok w1 =>
    have i1 : StepInv platform.releaseDir
        [platform.releaseDir ++ ["manifest.json"]] w w1 :=
      copyFile_inv w _ _ _ (isPrefixOf_append _ _) hm
    rcases hjs : processJsFiles tc platform CONFIG.jsFiles w1 with ⟨w2, e2?⟩
    have i2 : StepInv platform.releaseDir
        (CONFIG.jsFiles.map (fun f => platform.releaseDir ++ [f])) w1 w2 := by
      have h0 := processJsFiles_inv tc platform CONFIG.jsFiles w1
      rwa [hjs] at h0
    cases e2? with
    | some e =>
      simp only [buildPlatformSteps, hm, hjs]
      refine (i1.trans i2).mono ?_
      intro p hp
      rw [hprod]
      simp only [List.mem_append] at hp ⊢
      tauto
    | none =>
      simp only [buildPlatformSteps, hm, hjs]
      set W4 := CONFIG.cssFiles.foldl (fun w f =>
        copyOptionalFile w (CONFIG.sourceDir ++ ["css", f])
          (platform.releaseDir ++ [f])) w2 with hW4
      set W5 := CONFIG.htmlFiles.foldl (fun w f =>
        copyOptionalFile w (CONFIG.sourceDir ++ ["html", f])
          (platform.releaseDir ++ [f])) W4 with hW5
      have i3 : StepInv platform.releaseDir
          (CONFIG.cssFiles.map (fun f => platform.releaseDir ++ [f])) w2 W4 := by
        rw [hW4]
        exact copyOptionalFiles_fold_inv platform "css" CONFIG.cssFiles w2
      have i4 : StepInv platform.releaseDir
          (CONFIG.htmlFiles.map (fun f => platform.releaseDir ++ [f])) W4 W5 := by
        rw [hW5]
        exact copyOptionalFiles_fold_inv platform "html" CONFIG.htmlFiles W4
      have h6 : CONFIG.copyDirs.foldl (fun w d =>
          copyOptionalDir w (CONFIG.sourceDir ++ [d])
            (platform.releaseDir ++ [d])) W5
          = copyOptionalDir W5 (CONFIG.sourceDir ++ ["icons"])
              (platform.releaseDir ++ ["icons"]) := rfl
      rw [h6]
      have i5 := copyOptionalDir_inv W5 (CONFIG.sourceDir ++ ["icons"])
        (platform.releaseDir ++ ["icons"]) platform.releaseDir
        (isPrefixOf_append _ _)
      have hEnt : entriesUnder W5 (CONFIG.sourceDir ++ ["icons"])
          = entriesUnder w (CONFIG.sourceDir ++ ["icons"]) :=
        entriesUnder_eq_of_keep platform.releaseDir _ w W5
          (((i1.trans i2).trans i3).trans i4).keep_eq hdisjIcons
      cases hrd : generateReleaseReadme (copyOptionalDir W5
          (CONFIG.sourceDir ++ ["icons"]) (platform.releaseDir ++ ["icons"]))
          platform date with
      | error e =>
        simp only [hrd]
        refine ((((i1.trans i2).trans i3).trans i4).trans i5).mono ?_
        intro p hp
        rw [hEnt] at hp
        rw [hprod]
        simp only [List.mem_append, List.mem_singleton, List.not_mem_nil,
          or_false] at hp ⊢
        tauto
      | ok w7 =>
        simp only [hrd]
        have i6 := generateReleaseReadme_inv _ platform date hrd
        refine (((((i1.trans i2).trans i3).trans i4).trans i5).trans i6).mono ?_
        intro p hp
        rw [hEnt] at hp
        rw [hprod]
        simp only [List.mem_append, List.mem_singleton, List.not_mem_nil,
          or_false] at hp ⊢
        tauto

theorem filter_keep_idem (dir : Path) (l : List (Path × String)) :
    (l.filter (keepOutside dir)).filter (keepOutside dir)
      = l.filter (keepOutside dir) :=
  filter_of_filter_sub _ _ l (fun _ h => h)

theorem removeDir_files (w : World) (dir : Path) (hbad : w.bad = []) :
    removeDir w dir = ⟨w.files.filter (keepOutside dir), []⟩ := by
  have hb : w.isBad dir = false := by simp [World.isBad, hbad]
  unfold removeDir fsRm
  rw [hb]
  simp only [Bool.false_eq_true, if_false]
  rw [← hbad]

theorem buildPlatform_eq (tc : Toolchain) (date k : String) (pl : Platform)
    (w : World) (h : lookupPlatform k = some pl) :
    buildPlatform tc date k w
      = buildPlatformSteps tc date pl (removeDir w pl.releaseDir) := by
  unfold buildPlatform
  rw [h]
  rfl

theorem lookupPlatform_cases (k : String) (pl : Platform)
    (h : lookupPlatform k = some pl) :
    pl = chromePlatform ∨ pl = firefoxPlatform := by
  unfold lookupPlatform PLATFORMS at h
  cases h1 : (("chrome" : String) == k) with
  | true =>
    left
    rw [@List.find?_cons_of_pos (String × Platform) (fun e => e.1 == k)
      ("chrome", chromePlatform) _ h1] at h
    simpa using h.symm
  | false =>
    cases h2 : (("firefox" : String) == k) with
    | true =>
      right
      rw [@List.find?_cons_of_neg (String × Platform) (fun e => e.1 == k)
          ("chrome", chromePlatform) _ (by simp [h1]),
        @List.find?_cons_of_pos (String × Platform) (fun e => e.1 == k)
          ("firefox", firefoxPlatform) _ h2] at h
      simpa using h.symm
    | false =>
      rw [@List.find?_cons_of_neg (String × Platform) (fun e => e.1 == k)
          ("chrome", chromePlatform) _ (by simp [h1]),
        @List.find?_cons_of_neg (String × Platform) (fun e => e.1 == k)
          ("firefox", firefoxPlatform) _ (by simp [h2])] at h
      simp at h

theorem chrome_src_disj : ∀ q : Path,
    CONFIG.sourceDir.isPrefixOf q = true →
    chromePlatform.releaseDir.isPrefixOf q = false :=
  fun q h => prefix_head_ne "src" "chrome_release" [] [] q (by decide) h

theorem firefox_src_disj : ∀ q : Path,
    CONFIG.sourceDir.isPrefixOf q = true →
    firefoxPlatform.releaseDir.isPrefixOf q = false :=
  fun q h => prefix_head_ne "src" "firefox_release" [] [] q (by decide) h

theorem platform_src_disj (k : String) (pl : Platform)
    (hk : lookupPlatform k = some pl) : ∀ q : Path,
    CONFIG.sourceDir.isPrefixOf q = true →
    pl.releaseDir.isPrefixOf q = false := by
  rcases lookupPlatform_cases k pl hk with rfl | rfl
  · exact chrome_src_disj
  · exact firefox_src_disj

theorem buildPlatformSteps_date (tc : Toolchain) (pl : Platform)
    (d1 d2 : String) (w : World) :
    (buildPlatformSteps tc d1 pl w).2 = (buildPlatformSteps tc d2 pl w).2 ∧
    ∀ p : Path, p ≠ pl.releaseDir ++ ["README.md"] →
      (buildPlatformSteps tc d1 pl w).1.read p
        = (buildPlatformSteps tc d2 pl w).1.read p := by
  cases hm : copyFile w (CONFIG.sourceDir ++ ["manifests", pl.manifestFile])
      (pl.releaseDir ++ ["manifest.json"]) with
  | error e =>
    simp only [buildPlatformSteps, hm]
    exact ⟨trivial, fun _ _ => trivial⟩
  | ok w1 =>
    rcases hjs : processJsFiles tc pl CONFIG.jsFiles w1 with ⟨w2, e2?⟩
    cases e2? with
    | some e =>
      simp only [buildPlatformSteps, hm, hjs]
      exact ⟨trivial, fun _ _ => trivial⟩
    | none =>
      simp only [buildPlatformSteps, hm, hjs, generateReleaseReadme, fsWriteFile]
      set W6 := CONFIG.copyDirs.foldl (fun w d =>
        copyOptionalDir w (CONFIG.sourceDir ++ [d]) (pl.releaseDir ++ [d]))
        (CONFIG.htmlFiles.foldl (fun w f =>
          copyOptionalFile w (CONFIG.sourceDir ++ ["html", f])
            (pl.releaseDir ++ [f]))
          (CONFIG.cssFiles.foldl (fun w f =>
            copyOptionalFile w (CONFIG.sourceDir ++ ["css", f])
              (pl.releaseDir ++ [f])) w2)) with hW6
      cases hb : W6.isBad (pl.releaseDir ++ ["README.md"]) with
      | true =>
        simp only [hb, if_true]
        exact ⟨trivial, fun _ _ => trivial⟩
      | false =>
        simp only [hb, Bool.false_eq_true, if_false]
        refine ⟨trivial, ?_⟩
        intro p hp
        rw [read_cons_of_ne _ _ _ _ _ (Ne.symm hp),
          read_cons_of_ne _ _ _ _ _ (Ne.symm hp)]

/-- C2: for every supported platform, `buildPlatform` leaves no file in
the platform release directory that is not produced by the current
source configuration: the release directory is removed and recreated
first, so any path readable under it after the build is among the
produced paths (manifest, configured modules, configured style/markup
files, mirrored asset files, generated README).  Stated for a healthy
environment (no I/O faults). -/
theorem buildPlatform_clean_then_populate (tc : Toolchain) (date k : String)
    (pl : Platform) (w : World) (hk : lookupPlatform k = some pl)
    (hbad : w.bad = []) (p : Path)
    (hunder : pl.releaseDir.isPrefixOf p = true)
    (hpresent : (buildPlatform tc date k w).1.read p ≠ none) :
    p ∈ producedPaths pl w := by
  have hdisj := platform_src_disj k pl hk
  have hb1 := buildPlatform_eq tc date k pl w hk
  have hinv := buildPlatformSteps_inv tc date pl (removeDir w pl.releaseDir) hdisj
  by_contra hnp
  have hent : entriesUnder (removeDir w pl.releaseDir)
      (CONFIG.sourceDir ++ ["icons"])
      = entriesUnder w (CONFIG.sourceDir ++ ["icons"]) := by
    apply entriesUnder_eq_of_keep pl.releaseDir _ w
    · rw [removeDir_files w _ hbad]
      exact filter_keep_idem _ _
    · exact fun q hq => hdisj q
        (isPrefixOf_trans _ _ _ (isPrefixOf_append _ _) hq)
  have hprodeq : producedPaths pl (removeDir w pl.releaseDir)
      = producedPaths pl w := by
    unfold producedPaths
    rw [show CONFIG.copyDirs = ["icons"] from rfl]
    simp only [List.map_cons, List.map_nil]
    rw [hent]
  have hro := hinv.read_off p (by rw [hprodeq]; exact hnp)
  have hnone : (removeDir w pl.releaseDir).read p = none := by
    rw [removeDir_files w _ hbad]
    exact read_filter_keep_under w.files [] pl.releaseDir p hunder
  apply hpresent
  rw [hb1, hro, hnone]

/-- Witness for C2 at a concrete healthy source world, path and key. -/
theorem buildPlatform_clean_then_populate_witness :
    lookupPlatform "chrome" = some chromePlatform ∧
    srcWorld.bad = [] ∧
    chromePlatform.releaseDir.isPrefixOf
      ["chrome_release", "manifest.json"] = true ∧
    (buildPlatform idToolchain "2026-02-16" "chrome" srcWorld).1.read
        ["chrome_release", "manifest.json"] ≠ none ∧
    ["chrome_release", "manifest.json"] ∈ producedPaths chromePlatform srcWorld :=
  ⟨rfl, rfl, by decide, by decide,
    buildPlatform_clean_then_populate idToolchain "2026-02-16" "chrome"
      chromePlatform srcWorld rfl rfl _ (by decide) (by decide)⟩

/-- C8: building the same platform twice against an unchanged source tree
(in a healthy environment, with the protection passes deterministic
functions as fixed by the toolchain) gives a second build that succeeds
and whose release tree is byte-identical to the first -- module files
included -- at every path except the generated README, whose embedded
date may differ. -/
theorem buildPlatform_idempotent_modulo_readme_date (tc : Toolchain)
    (d1 d2 k : String) (pl : Platform) (w : World)
    (hk : lookupPlatform k = some pl) (hbad : w.bad = [])
    (hok : (buildPlatform tc d1 k w).2 = none) :
    (buildPlatform tc d2 k (buildPlatform tc d1 k w).1).2 = none ∧
    ∀ p : Path, p ≠ pl.releaseDir ++ ["README.md"] →
      (buildPlatform tc d2 k (buildPlatform tc d1 k w).1).1.read p
        = (buildPlatform tc d1 k w).1.read p := by
  have hdisj := platform_src_disj k pl hk
  have hw0 : removeDir w pl.releaseDir
      = ⟨w.files.filter (keepOutside pl.releaseDir), []⟩ :=
    removeDir_files w _ hbad
  have hb1 : buildPlatform tc d1 k w
      = buildPlatformSteps tc d1 pl (removeDir w pl.releaseDir) :=
    buildPlatform_eq tc d1 k pl w hk
  have hinv := buildPlatformSteps_inv tc d1 pl (removeDir w pl.releaseDir) hdisj
  have hbad1 : (buildPlatform tc d1 k w).1.bad = [] := by
    rw [hb1, hinv.bad_eq, hw0]
  have hclean : removeDir (buildPlatform tc d1 k w).1 pl.releaseDir
      = removeDir w pl.releaseDir := by
    rw [removeDir_files _ _ hbad1, hw0]
    congr 1
    rw [hb1, hinv.keep_eq, hw0]
    exact filter_keep_idem _ _
  have hb2 : buildPlatform tc d2 k (buildPlatform tc d1 k w).1
      = buildPlatformSteps tc d2 pl (removeDir w pl.releaseDir) := by
    rw [buildPlatform_eq tc d2 k pl _ hk, hclean]
  obtain ⟨hde, hdr⟩ :=
    buildPlatformSteps_date tc pl d2 d1 (removeDir w pl.releaseDir)
  constructor
  · rw [hb2, hde]
    rw [hb1] at hok
    exact hok
  · intro p hp
    rw [hb2, hb1]
    exact hdr p hp

/-- Witness for C8: two chrome builds on the healthy source world with
different dates. -/
theorem buildPlatform_idempotent_witness :
    lookupPlatform "chrome" = some chromePlatform ∧
    srcWorld.bad = [] ∧
    (buildPlatform idToolchain "2026-02-16" "chrome" srcWorld).2 = none ∧
    ((buildPlatform idToolchain "2026-02-17" "chrome"
        (buildPlatform idToolchain "2026-02-16" "chrome" srcWorld).1).2 = none ∧
      ∀ p : Path, p ≠ chromePlatform.releaseDir ++ ["README.md"] →
        (buildPlatform idToolchain "2026-02-17" "chrome"
            (buildPlatform idToolchain "2026-02-16" "chrome" srcWorld).1).1.read p
          = (buildPlatform idToolchain "2026-02-16" "chrome" srcWorld).1.read p) :=
  ⟨rfl, rfl, by decide,
    buildPlatform_idempotent_modulo_readme_date idToolchain "2026-02-16"
      "2026-02-17" "chrome" chromePlatform srcWorld rfl rfl (by decide)⟩

theorem moduleOk_congr (tc : Toolchain) (pl : Platform) (w w' : World)
    (f : String)
    (h : w'.read (CONFIG.sourceDir ++ ["js", f])
      = w.read (CONFIG.sourceDir ++ ["js", f])) :
    moduleOk tc pl w' f = moduleOk tc pl w f := by
  unfold moduleOk
  rw [h]

theorem src_ne_dest (dir q t : Path) (h : dir.isPrefixOf q = false) :
    dir ++ t ≠ q := by
  intro he
  rw [← he, isPrefixOf_append] at h
  exact Bool.noConfusion h

theorem processJsFile_ok_iff (tc : Toolchain) (pl : Platform) (w : World)
    (f : String) (hbad : w.bad = []) :
    ((processJsFile tc w f pl).2 = none ↔ moduleOk tc pl w f = true) := by
  have hb1 : w.isBad (CONFIG.sourceDir ++ ["js", f]) = false := by
    simp [World.isBad, hbad]
  have hb2 : w.isBad (pl.releaseDir ++ [f]) = false := by
    simp [World.isBad, hbad]
  simp only [processJsFile, fsReadFile, fsWriteFile, moduleOk, hb1, hb2,
    Bool.false_eq_true, if_false]
  cases hr : w.read (CONFIG.sourceDir ++ ["js", f]) with
  | none => simp
  | some s =>
    cases hm : tc.minify (pl.apiTransform s) with
    | error msg => simp [hm]
    | ok m => simp [hm]

theorem processJsFiles_ok_iff (tc : Toolchain) (pl : Platform)
    (hdisj : ∀ q : Path, CONFIG.sourceDir.isPrefixOf q = true →
      pl.releaseDir.isPrefixOf q = false) :
    ∀ (fs : List String) (w : World), w.bad = [] →
    ((processJsFiles tc pl fs w).2 = none ↔
      ∀ f ∈ fs, moduleOk tc pl w f = true) := by
  intro fs
  induction fs with
  | nil => intro w _; simp [processJsFiles]
  | cons f rest ih =>
    intro w hbad
    rcases hpf : processJsFile tc w f pl with ⟨w1, e1?⟩
    have hf_iff : e1? = none ↔ moduleOk tc pl w f = true := by
      have h0 := processJsFile_ok_iff tc pl w f hbad
      rwa [hpf] at h0
    have hinv : StepInv pl.releaseDir [pl.releaseDir ++ [f]] w w1 := by
      have h0 := processJsFile_inv tc w f pl
      rwa [hpf] at h0
    have hbad1 : w1.bad = [] := by rw [hinv.bad_eq, hbad]
    have hreadpres : ∀ g : String,
        w1.read (CONFIG.sourceDir ++ ["js", g])
          = w.read (CONFIG.sourceDir ++ ["js", g]) := by
      intro g
      apply hinv.read_off
      intro hmem
      have heq := List.mem_singleton.mp hmem
      exact src_ne_dest pl.releaseDir (CONFIG.sourceDir ++ ["js", g]) [f]
        (hdisj _ (isPrefixOf_append _ _)) heq.symm
    cases e1? with
    | none =>
      have hstep : processJsFiles tc pl (f :: rest) w
          = processJsFiles tc pl rest w1 := by
        simp only [processJsFiles, hpf]
      rw [hstep, ih w1 hbad1]
      have hmo : moduleOk tc pl w f = true := hf_iff.mp rfl
      constructor
      · intro hall g hg
        rcases List.mem_cons.mp hg with rfl | hg'
        · exact hmo
        · rw [← moduleOk_congr tc pl w w1 g (hreadpres g)]
          exact hall g hg'
      · intro hall g hg
        rw [moduleOk_congr tc pl w w1 g (hreadpres g)]
        exact hall g (List.mem_cons_of_mem _ hg)
    | some e =>
      have hstep : processJsFiles tc pl (f :: rest) w = (w1, some e) := by
        simp only [processJsFiles, hpf]
      rw [hstep]
      apply iff_of_false
      · simp
      · intro hall
        have hmo : moduleOk tc pl w f = true :=
          hall f (List.mem_cons_self _ _)
        exact Option.noConfusion (hf_iff.mpr hmo)

/-- C3 (amended): within one platform build in a healthy environment,
the build succeeds exactly when the platform manifest is present and
every configured module can be processed: manifest copying and module
processing are the only failure sources; the optional style/markup/asset
copies and the version lookup never make the build fail.  (When the
environment faults, a Documentation Generator write failure aborts the
build too -- see the counterexample.) -/
theorem buildPlatform_success_iff (tc : Toolchain) (date k : String)
    (pl : Platform) (w : World) (hk : lookupPlatform k = some pl)
    (hbad : w.bad = []) :
    ((buildPlatform tc date k w).2 = none ↔
      ((w.read (CONFIG.sourceDir ++ ["manifests", pl.manifestFile])).isSome
          = true ∧
        ∀ f ∈ CONFIG.jsFiles, moduleOk tc pl w f = true)) := by
  have hdisj := platform_src_disj k pl hk
  rw [buildPlatform_eq tc date k pl w hk]
  set w0 := removeDir w pl.releaseDir with hw0def
  have hw0 : w0 = ⟨w.files.filter (keepOutside pl.releaseDir), []⟩ :=
    removeDir_files w _ hbad
  have hbad0 : w0.bad = [] := by rw [hw0]
  have hreadsrc : ∀ q : Path, pl.releaseDir.isPrefixOf q = false →
      w0.read q = w.read q := by
    intro q hq
    rw [hw0]
    exact read_filter_keep w.files [] w.bad pl.releaseDir q hq
  have hms : w0.read (CONFIG.sourceDir ++ ["manifests", pl.manifestFile])
      = w.read (CONFIG.sourceDir ++ ["manifests", pl.manifestFile]) :=
    hreadsrc _ (hdisj _ (isPrefixOf_append _ _))
  have hbms : w0.isBad (CONFIG.sourceDir ++ ["manifests", pl.manifestFile])
      = false := by simp [World.isBad, hbad0]
  have hbmd : w0.isBad (pl.releaseDir ++ ["manifest.json"]) = false := by
    simp [World.isBad, hbad0]
  cases hr : w.read (CONFIG.sourceDir ++ ["manifests", pl.manifestFile]) with
  | none =>
    have hcf : copyFile w0
        (CONFIG.sourceDir ++ ["manifests", pl.manifestFile])
        (pl.releaseDir ++ ["manifest.json"]) = .error .notFound := by
      unfold copyFile fsReadFile
      rw [hbms]
      simp only [Bool.false_eq_true, if_false]
      rw [hms, hr]
    apply iff_of_false
    · simp [buildPlatformSteps, hcf]
    · simp
  | some c =>
    have hcf : copyFile w0
        (CONFIG.sourceDir ++ ["manifests", pl.manifestFile])
        (pl.releaseDir ++ ["manifest.json"])
        = .ok ⟨(pl.releaseDir ++ ["manifest.json"], c) :: w0.files, w0.bad⟩ := by
      unfold copyFile fsReadFile fsWriteFile
      rw [hbms]
      simp only [Bool.false_eq_true, if_false]
      rw [hms, hr]
      rw [hbmd]
      simp only [Bool.false_eq_true, if_false]
    set w1 : World :=
      ⟨(pl.releaseDir ++ ["manifest.json"], c) :: w0.files, w0.bad⟩ with hw1def
    have hbad1 : w1.bad = [] := hbad0
    have hreads1 : ∀ g : String,
        w1.read (CONFIG.sourceDir ++ ["js", g])
          = w.read (CONFIG.sourceDir ++ ["js", g]) := by
      intro g
      rw [hw1def]
      rw [read_cons_of_ne _ _ _ _ _
        (src_ne_dest pl.releaseDir (CONFIG.sourceDir ++ ["js", g])
          ["manifest.json"] (hdisj _ (isPrefixOf_append _ _)))]
      exact hreadsrc _ (hdisj _ (isPrefixOf_append _ _))
    rcases hjs : processJsFiles tc pl CONFIG.jsFiles w1 with ⟨w2, e2?⟩
    have hjs_iff : (e2? = none) ↔
        ∀ f ∈ CONFIG.jsFiles, moduleOk tc pl w1 f = true := by
      have h0 := processJsFiles_ok_iff tc pl hdisj CONFIG.jsFiles w1 hbad1
      rwa [hjs] at h0
    have hmo_eq : ∀ f : String, moduleOk tc pl w1 f = moduleOk tc pl w f :=
      fun f => moduleOk_congr tc pl w w1 f (hreads1 f)
    cases e2? with
    | some e =>
      apply iff_of_false
      · simp [buildPlatformSteps, hcf, hjs]
      · rintro ⟨_, hall⟩
        have : ∀ f ∈ CONFIG.jsFiles, moduleOk tc pl w1 f = true := by
          intro f hf
          rw [hmo_eq f]
          exact hall f hf
        exact Option.noConfusion (hjs_iff.mpr this)
    | none =>
      apply iff_of_true
      · simp only [buildPlatformSteps, hcf, hjs]
        have hinv2 : StepInv pl.releaseDir
            (CONFIG.jsFiles.map (fun f => pl.releaseDir ++ [f])) w1 w2 := by
          have h0 := processJsFiles_inv tc pl CONFIG.jsFiles w1
          rwa [hjs] at h0
        have hbad2 : w2.bad = [] := by rw [hinv2.bad_eq, hbad1]
        set W4 := CONFIG.cssFiles.foldl (fun w f =>
          copyOptionalFile w (CONFIG.sourceDir ++ ["css", f])
            (pl.releaseDir ++ [f])) w2 with hW4
        set W5 := CONFIG.htmlFiles.foldl (fun w f =>
          copyOptionalFile w (CONFIG.sourceDir ++ ["html", f])
            (pl.releaseDir ++ [f])) W4 with hW5
        have i3 : StepInv pl.releaseDir
            (CONFIG.cssFiles.map (fun f => pl.releaseDir ++ [f])) w2 W4 := by
          rw [hW4]
          exact copyOptionalFiles_fold_inv pl "css" CONFIG.cssFiles w2
        have i4 : StepInv pl.releaseDir
            (CONFIG.htmlFiles.map (fun f => pl.releaseDir ++ [f])) W4 W5 := by
          rw [hW5]
          exact copyOptionalFiles_fold_inv pl "html" CONFIG.htmlFiles W4
        have h6 : CONFIG.copyDirs.foldl (fun w d =>
            copyOptionalDir w (CONFIG.sourceDir ++ [d])
              (pl.releaseDir ++ [d])) W5
            = copyOptionalDir W5 (CONFIG.sourceDir ++ ["icons"])
                (pl.releaseDir ++ ["icons"]) := rfl
        rw [h6]
        have i5 := copyOptionalDir_inv W5 (CONFIG.sourceDir ++ ["icons"])
          (pl.releaseDir ++ ["icons"]) pl.releaseDir (isPrefixOf_append _ _)
        have hbad6 : (copyOptionalDir W5 (CONFIG.sourceDir ++ ["icons"])
            (pl.releaseDir ++ ["icons"])).isBad
              (pl.releaseDir ++ ["README.md"]) = false := by
          have hb : (copyOptionalDir W5 (CONFIG.sourceDir ++ ["icons"])
              (pl.releaseDir ++ ["icons"])).bad = [] := by
            rw [i5.bad_eq, i4.bad_eq, i3.bad_eq, hbad2]
          simp [World.isBad, hb]
        simp only [generateReleaseReadme, fsWriteFile, hbad6,
          Bool.false_eq_true, if_false]
      · refine ⟨rfl, ?_⟩
        intro f hf
        rw [← hmo_eq f]
        exact (hjs_iff.mp rfl) f hf

/-- Witness for C3 (amended) at the healthy source world: both sides of
the characterization hold. -/
theorem buildPlatform_success_iff_witness :
    lookupPlatform "chrome" = some chromePlatform ∧
    srcWorld.bad = [] ∧
    ((buildPlatform idToolchain "2026-02-16" "chrome" srcWorld).2 = none ↔
      ((srcWorld.read
          (CONFIG.sourceDir ++ ["manifests", chromePlatform.manifestFile])).isSome
          = true ∧
        ∀ f ∈ CONFIG.jsFiles,
          moduleOk idToolchain chromePlatform srcWorld f = true)) :=
  ⟨rfl, rfl, buildPlatform_success_iff idToolchain "2026-02-16" "chrome"
    chromePlatform srcWorld rfl rfl⟩

/-! ## Claims about the Firefox source transform -/

/-- C6: applied to `"chrome.storage.get(x)"`, the Firefox transform
returns `"browser.storage.get(x)"` preceded by the compatibility shim;
the substitution is purely textual and replaces every occurrence of the
`chrome.` token (second conjunct: a two-occurrence input). -/
theorem firefox_transform_chrome_storage_example :
    firefoxApiTransform "chrome.storage.get(x)"
        = firefoxPolyfill ++ "browser.storage.get(x)" ∧
    firefoxApiTransform "chrome.a;chrome.b"
        = firefoxPolyfill ++ "browser.a;browser.b" := by decide

/-- C5 counterexample: the shim emitted by the Firefox transform contains
the declaration `var browser = chrome` -- it defines the modern
identifier `browser` -- and contains no declaration of the legacy
identifier `chrome` (no `var chrome` anywhere in the output), contrary to
the claim that the shim defines the legacy identifier as an alias for the
modern one. -/
theorem firefox_shim_alias_direction_counterexample :
    ("var browser = chrome".data <:+: (firefoxApiTransform "").data) ∧
    ¬ ("var chrome".data <:+: (firefoxApiTransform "").data) := by decide

/-- C5 (amended): the Firefox transform prepends a compatibility shim
that defines the modern namespace identifier `browser` as an alias for
the legacy identifier `chrome`, and the alias takes effect only when
`browser` is not already defined (the declaration is guarded by
`typeof browser === \x27undefined\x27`). -/
theorem firefox_shim_defines_browser_when_undefined (code : String) :
    firefoxPolyfill.data <+: (firefoxApiTransform code).data ∧
    ("if (typeof browser === \x27undefined\x27)".data <:+: firefoxPolyfill.data) ∧
    ("var browser = chrome;".data <:+: firefoxPolyfill.data) := by
  refine ⟨?_, by decide, by decide⟩
  show firefoxPolyfill.data
      <+: (firefoxPolyfill ++ jsReplace code "chrome." "browser.").data
  rw [String.data_append]
  exact List.prefix_append _ _

/-- C10: the legacy-token substitution happens before the shim is
prepended, so for every input the returned text begins with the exact,
unmodified shim (whose own `chrome` reference is never rewritten): the
prefix of the output of the shim's length is the shim itself, and the
shim contains `var browser = chrome`. -/
theorem firefox_transform_prepends_unmodified_shim (code : String) :
    (firefoxApiTransform code).data.take firefoxPolyfill.data.length
        = firefoxPolyfill.data ∧
    ("var browser = chrome".data <:+: firefoxPolyfill.data) := by
  constructor
  · show ((firefoxPolyfill ++ jsReplace code "chrome." "browser.").data).take _ = _
    rw [String.data_append]
    exact List.take_left _ _
  · decide

/-! ## Claims about the filesystem utilities -/

/-- C4: `removeDir` is a silent no-op on a missing path (first conjunct),
but it also swallows an unexpected I/O fault: on a world where the
recursive removal of `d` faults, it returns the world unchanged instead
of surfacing the failure (its return type carries no error at all,
mirroring the catch clause in `build.js` that ignores every error). -/
theorem removeDir_silent_and_swallows :
    removeDir emptyWorld ["missing"] = emptyWorld ∧
    removeDir c4World ["d"] = c4World := by decide

/-! ## Claims about platform resolution and the entry point -/

/-- C7: `buildPlatform` called with a key not present in the platform
registry fails with the unknown-platform error, reported to the caller,
and performs no filesystem mutation (the returned world is the input
world). -/
theorem buildPlatform_unknown_key (tc : Toolchain) (date : String)
    (w : World) (key : String) (h : lookupPlatform key = none) :
    buildPlatform tc date key w = (w, some (.unknownPlatform key)) := by
  simp [buildPlatform, h]

/-- Witness for C7 at the concrete key `"edge"`. -/
theorem buildPlatform_unknown_key_witness :
    lookupPlatform "edge" = none ∧
    buildPlatform idToolchain "2026-02-16" "edge" emptyWorld
        = (emptyWorld, some (.unknownPlatform "edge")) :=
  ⟨rfl, buildPlatform_unknown_key idToolchain "2026-02-16" emptyWorld "edge" rfl⟩

/-- C9 counterexample: on the unknown selector `"edge"` the usage message
is printed on standard output (`console.log`), not on standard error;
standard error carries only the unknown-target diagnostic. -/
theorem unknown_selector_usage_on_stdout_counterexample :
    ¬ ("Usage: node build.js [chrome|firefox|all]" ∈
        (build idToolchain "2026-02-16" ["edge"] emptyWorld).stderrLines) ∧
    (build idToolchain "2026-02-16" ["edge"] emptyWorld).stderrLines
        = ["Unknown target: edge"] ∧
    "Usage: node build.js [chrome|firefox|all]" ∈
        (build idToolchain "2026-02-16" ["edge"] emptyWorld).stdoutLines := by decide

/-- C9 (amended): an unknown selector makes the entry point print the
unknown-target diagnostic to standard error and the usage message to
standard output, exit with a non-zero status, and leave the filesystem
untouched. -/
theorem unknown_selector_rejected (tc : Toolchain) (date : String)
    (w : World) (a : String) (h0 : a.isEmpty = false)
    (hc : jsToLower a ≠ "chrome") (hch : jsToLower a ≠ "ch")
    (hf : jsToLower a ≠ "firefox") (hff : jsToLower a ≠ "ff")
    (ha : jsToLower a ≠ "all") (hb : jsToLower a ≠ "both") :
    build tc date [a] w =
      { world := w, exitCode := 1, stdoutLines := usageLines,
        stderrLines := ["Unknown target: " ++ jsToLower a] } := by
  simp [build, h0, hc, hch, hf, hff, ha, hb]

/-- Witness for C9 (amended) at the concrete selector `"edge"`. -/
theorem unknown_selector_rejected_witness :
    "edge".isEmpty = false ∧
    build idToolchain "2026-02-16" ["edge"] emptyWorld =
      { world := emptyWorld, exitCode := 1, stdoutLines := usageLines,
        stderrLines := ["Unknown target: " ++ jsToLower "edge"] } :=
  ⟨rfl, unknown_selector_rejected idToolchain "2026-02-16" emptyWorld "edge" rfl
    (by decide) (by decide) (by decide) (by decide) (by decide) (by decide)⟩

/-! ## Claims about failure behavior of a platform build -/

/-- C1 counterexample: with `content.js` absent (the second configured
module), the chrome build fails with a not-found condition but has
already written the protected `background.js` into the chrome release
directory -- it does not write zero module files. -/
theorem missing_module_partial_write_counterexample :
    (buildPlatform idToolchain "2026-02-16" "chrome" c1World).2
        = some (.fsFail .notFound) ∧
    (buildPlatform idToolchain "2026-02-16" "chrome" c1World).1.read
        ["chrome_release", "background.js"] = some "bg" := by decide

/-- C3 counterexample: when writing the generated README faults, the
failure propagates out of `generateReleaseReadme` (there is no catch
around step 7 in `build.js`), so the platform build -- whose module
processing has succeeded -- terminates with the fault, and the overall
invocation exits non-zero: a Documentation Generator failure does abort
the build. -/
theorem readme_write_failure_aborts_counterexample :
    (buildPlatform idToolchain "2026-02-16" "chrome" c3World).2
        = some (.fsFail .ioError) ∧
    (buildPlatform idToolchain "2026-02-16" "chrome" c3World).1.read
        ["chrome_release", "background.js"] = some "a" ∧
    (buildPlatform idToolchain "2026-02-16" "chrome" c3World).1.read
        ["chrome_release", "README.md"] = none ∧
    (build idToolchain "2026-02-16" ["chrome"] c3World).exitCode = 1 := by decide

/-- C1 (amended): with the second configured module absent, the chrome
build fails with a not-found condition, keeps the module files already
processed before the missing one (`background.js`), writes none of the
later modules (`injected.js` stays absent: the loop aborts), and leaves
every path of the sibling platform's release directory exactly as it was;
in the same `all` invocation the failure propagates to the top-level
catch, so the invocation exits non-zero and the sibling platform is not
built at all (its manifest is never created, its stale file survives). -/
theorem missing_module_partial_build_behavior :
    (buildPlatform idToolchain "2026-02-16" "chrome" c1World).2
        = some (.fsFail .notFound) ∧
    (buildPlatform idToolchain "2026-02-16" "chrome" c1World).1.read
        ["chrome_release", "background.js"] = some "bg" ∧
    (buildPlatform idToolchain "2026-02-16" "chrome" c1World).1.read
        ["chrome_release", "injected.js"] = none ∧
    (∀ p : Path, (["firefox_release"] : Path).isPrefixOf p = true →
      (buildPlatform idToolchain "2026-02-16" "chrome" c1World).1.read p
        = c1World.read p) ∧
    (build idToolchain "2026-02-16" ["all"] c1World).exitCode = 1 ∧
    (build idToolchain "2026-02-16" ["all"] c1World).world.read
        ["firefox_release", "manifest.json"] = none ∧
    (build idToolchain "2026-02-16" ["all"] c1World).world.read
        ["firefox_release", "stale.txt"] = some "old" := by
  have hr : buildPlatform idToolchain "2026-02-16" "chrome" c1World
      = (⟨(["chrome_release", "background.js"], "bg")
            :: (["chrome_release", "manifest.json"], "mc") :: c1World.files, []⟩,
          some (.fsFail .notFound)) := by decide
  refine ⟨by decide, by decide, by decide, ?_, by decide, by decide, by decide⟩
  intro p hp
  obtain ⟨t, ht⟩ := (prefix_bool_iff _ _).mp hp
  have hne1 : (["chrome_release", "background.js"] : Path) ≠ p := by
    rw [← ht]
    intro he
    simp at he
  have hne2 : (["chrome_release", "manifest.json"] : Path) ≠ p := by
    rw [← ht]
    intro he
    simp at he
  rw [hr]
  show World.read
      ⟨(["chrome_release", "background.js"], "bg")
        :: (["chrome_release", "manifest.json"], "mc") :: c1World.files, []⟩ p
      = c1World.read p
  rw [read_cons_of_ne _ _ _ _ _ hne1, read_cons_of_ne _ _ _ _ _ hne2]
  rfl

end CodeSolverPro
